import Mathlib

/-!
# Dragonseeker session core — verification development

Shallow embedding of the Dragonseeker game server's session core:

* `src/app/routes/gameplay.py` — voting, timer-poll and dragon-guess handlers;
* `src/app/routes/lobby.py`    — start-game and set-timer handlers;
* `src/app/core/auth.py`       — signed player tokens.

The `GameSession` methods and the `services` modules (`voting`,
`game_state`, `win_conditions`) are imported by the routes but their
source is not part of the repository snapshot; those definitions are
modelled from the specification (§4.4 / §4.5) and carry a
`Modelled from the spec:` doc comment.  Route handlers are translated
from the Python source line by line; Python exceptions become `Except`
values and a handler returns the session state it leaves behind
together with the number of broadcasts it performed.
-/

namespace Dragonseeker

/-- Role values (`core.roles.Role`); a closed tagged variant. -/
inductive Role where
  | villager
  | knight
  | dragon
deriving DecidableEq, Repr

/-- Lifecycle states (`core.game_session.GameState`). -/
inductive GameState where
  | LOBBY
  | PLAYING
  | VOTING
  | DRAGON_GUESS
  | FINISHED
deriving DecidableEq, Repr

/-- A player record.  `role` is `none` until the game starts. -/
structure Player where
  name : String
  is_host : Bool
  is_alive : Bool
  role : Option Role
  knows_word : Bool
deriving DecidableEq, Repr

/-- The session aggregate.  Players and votes are association lists keyed
by player id; `last_eliminated` is the spec's "last vote tally result"
(§3), consulted by `check_dragon_eliminated`. -/
structure Game where
  state : GameState
  players : List (String × Player)
  villager_word : Option String
  knight_word : Option String
  votes : List (String × String)
  winner : Option String
  dragon_guess : Option String
  voting_timer_seconds : Option Int
  voting_started_at : Option Int
  last_eliminated : Option String
deriving DecidableEq, Repr

/-- `game.players.get(pid)` on the player dict. -/
def lookupPlayer (ps : List (String × Player)) (pid : String) : Option Player :=
  (ps.find? (fun e => e.1 = pid)).map (·.2)

/-- `voter_id in game.votes` on the vote dict. -/
def hasVoted (g : Game) (pid : String) : Bool :=
  g.votes.any (fun e => e.1 = pid)

/-- Count of players currently alive. -/
def aliveCount (g : Game) : Nat :=
  (g.players.filter (fun e => e.2.is_alive)).length

/-- Count of alive players whose role is not Dragon. -/
def aliveNonDragonCount (g : Game) : Nat :=
  (g.players.filter (fun e => e.2.is_alive && e.2.role ≠ some Role.dragon)).length

/-- Python truthiness of an optional string (`not game.villager_word`):
falsy iff absent or empty. -/
def strTruthy : Option String → Bool
  | none => false
  | some s => s.length ≠ 0

/-- Python truthiness of the optional timer
(`not game.voting_timer_seconds`): falsy iff absent or zero. -/
def timerTruthy : Option Int → Bool
  | none => false
  | some t => t ≠ 0

/-! ## Python string helpers (ASCII model of `str.strip` / `str.lower`) -/

/-- Whitespace characters removed by Python's `str.strip()`. -/
def isPySpace (c : Char) : Bool :=
  c = ' ' || c = '\t' || c = '\n' || c = '\x0d' || c = '\x0b' || c = '\x0c'

/-- `s.strip()` over the character list. -/
def pyStripList (cs : List Char) : List Char :=
  ((cs.dropWhile isPySpace).reverse.dropWhile isPySpace).reverse

/-- `s.strip()`. -/
def pyStrip (s : String) : String :=
  ⟨pyStripList s.toList⟩

/-- `str.lower()` on one character (ASCII range). -/
def pyLowerChar (c : Char) : Char :=
  if 'A' ≤ c ∧ c ≤ 'Z' then Char.ofNat (c.toNat + 32) else c

/-- `s.lower()` (ASCII model). -/
def pyLower (s : String) : String :=
  ⟨s.toList.map pyLowerChar⟩

/-! ## Spec-modelled session operations and services -/

/-- Errors of the spec's taxonomy (§7) raised by session operations. -/
inductive SessionErr where
  | invalidPhase
  | invalidTimerValue
  | playerNotFound
  | voterIneligible
  | invalidTarget
deriving DecidableEq, Repr

/-- Modelled from the spec: `GameSession.set_voting_timer` (§4.4, source
module `core.game_session` absent from the snapshot; behaviour pinned by
`src/app/tests/services/test_timer.py`).  Only valid in LOBBY; a non-null
value must lie in `[30, 180]`; `none` disables the timer.  Raising means
the object is untouched, so the error branches carry no new state. -/
def set_voting_timer (g : Game) (v : Option Int) : Except SessionErr Game :=
  if g.state ≠ GameState.LOBBY then .error .invalidPhase
  else
    match v with
    | none => .ok { g with voting_timer_seconds := none }
    | some s =>
        if 30 ≤ s ∧ s ≤ 180 then .ok { g with voting_timer_seconds := some s }
        else .error .invalidTimerValue

/-- Modelled from the spec: `GameSession.get_voting_time_remaining`
(§4.4, module absent): `none` if no timer configured, otherwise
`max(0, timer_seconds - elapsed_since(voting_started_at))`, recomputed
from the stored start instant; `now` is the clock reading at the call. -/
def get_voting_time_remaining (g : Game) (now : Int) : Option Int :=
  match g.voting_timer_seconds with
  | none => none
  | some t =>
      match g.voting_started_at with
      | none => none
      | some s => some (max 0 (t - (now - s)))

/-- Modelled from the spec: `services.voting.can_vote` (§4.5, module
absent): true only if `state = VOTING`, the player exists, is alive, and
has not yet voted this round; otherwise false with a reason. -/
def can_vote (g : Game) (pid : String) : Bool × String :=
  if g.state ≠ GameState.VOTING then (false, "Not in voting phase")
  else
    match lookupPlayer g.players pid with
    | none => (false, "Player not found")
    | some p =>
        if !p.is_alive then (false, "Dead players cannot vote")
        else if hasVoted g pid then (false, "Already voted this round")
        else (true, "")

/-- Modelled from the spec: `services.voting.all_votes_submitted` (§4.5,
module absent): the count of votes cast equals the count of alive
players. -/
def all_votes_submitted (g : Game) : Bool :=
  g.votes.length = aliveCount g

/-- Modelled from the spec: `services.game_state.can_start_voting`
(§4.5, module absent): true only if `state = PLAYING`. -/
def can_start_voting (g : Game) : Bool × String :=
  if g.state = GameState.PLAYING then (true, "")
  else (false, "Game is not in playing phase")

/-- Modelled from the spec: `GameSession.submit_vote` (§4.4, module
absent): valid only in VOTING; `PlayerNotFound` if either id is unknown,
`VoterIneligible` if the voter is dead or already voted, `InvalidTarget`
if the target is dead; records the vote, never overwriting. -/
def session_submit_vote (g : Game) (voter target : String) :
    Except SessionErr Game :=
  if g.state ≠ GameState.VOTING then .error .invalidPhase
  else
    match lookupPlayer g.players voter, lookupPlayer g.players target with
    | none, _ => .error .playerNotFound
    | _, none => .error .playerNotFound
    | some pv, some pt =>
        if !pv.is_alive || hasVoted g voter then .error .voterIneligible
        else if !pt.is_alive then .error .invalidTarget
        else .ok { g with votes := g.votes ++ [(voter, target)] }

/-- Mark one player dead. -/
def markDead (ps : List (String × Player)) (pid : String) :
    List (String × Player) :=
  ps.map (fun e => if e.1 = pid then (e.1, { e.2 with is_alive := false }) else e)

/-- Modelled from the spec: `GameSession.tally_votes` (§4.4, module
absent): counts votes per target; a target with the strict plurality is
eliminated (`is_alive := false`) and recorded as the last tally result;
a tie at the maximum yields no elimination.  Returns the updated session
and the eliminated id, if any. -/
def tally_votes (g : Game) : Game × Option String :=
  let targets := (g.votes.map (·.2)).eraseDups
  let counts := targets.map (fun t => (t, (g.votes.filter (fun e => e.2 = t)).length))
  let m := (counts.map (·.2)).foldl max 0
  match counts.filter (fun e => e.2 = m) with
  | [(t, _)] =>
      ({ g with players := markDead g.players t, last_eliminated := some t }, some t)
  | _ => ({ g with last_eliminated := none }, none)

/-- Modelled from the spec: `services.win_conditions.check_dragon_eliminated`
(§4.4, module absent): true iff the just-tallied elimination target's
role is Dragon. -/
def check_dragon_eliminated (g : Game) : Bool :=
  match g.last_eliminated with
  | none => false
  | some pid =>
      match lookupPlayer g.players pid with
      | some p => p.role = some Role.dragon
      | none => false

/-- Modelled from the spec: `services.win_conditions.determine_winner`
(§4.4, module absent), rule set in order: (a) Dragon just eliminated —
no direct winner, control passes to the guess phase; (b) fewer than two
non-Dragon players alive — Dragon wins by attrition; (c) otherwise no
winner yet. -/
def determine_winner (g : Game) : Option String :=
  if check_dragon_eliminated g then none
  else if aliveNonDragonCount g < 2 then some "dragon"
  else none

/-- Modelled from the spec: `services.game_state.transition_to_playing`
(§4.4, module absent): return to PLAYING with no elimination. -/
def transition_to_playing (g : Game) : Game :=
  { g with state := GameState.PLAYING }

/-- Modelled from the spec: `services.game_state.transition_to_voting`
(§4.4, module absent): clear the vote mapping and enter VOTING. -/
def transition_to_voting (g : Game) : Game :=
  { g with state := GameState.VOTING, votes := [] }

/-- Modelled from the spec: `services.game_state.transition_to_finished`
(§4.4, module absent): set the winner and enter FINISHED. -/
def transition_to_finished (g : Game) (w : String) : Game :=
  { g with state := GameState.FINISHED, winner := some w }

/-! ## Route handlers (translated from `src/app/routes`)

A handler is modelled after the `game_manager` lookup has succeeded: it
takes the session it mutates in place and returns the session left
behind, the HTTP outcome, and the number of `broadcast_state` calls it
performed.  Raising an `HTTPException` aborts the handler before any
later statement, so an error outcome is always paired with the original
session and zero broadcasts. -/

/-- HTTP error outcomes raised by the handlers. -/
inductive HErr where
  | unauthorized
  | forbidden (msg : String)
  | badRequest (msg : String)
  | serverError (msg : String)
deriving DecidableEq, Repr

/-- Validated token data injected by the `get_token_data` dependency
(`core/auth.py`): the authenticated game and player identity. -/
structure ReqToken where
  game_id : String
  player_id : String
deriving DecidableEq, Repr

/-- `core.auth.verify_token_matches` (src lines 146-158): 403 unless the
token data matches the requested game and player. -/
def verify_token_matches (td : ReqToken) (game_id player_id : String) :
    Except HErr Unit :=
  if td.game_id ≠ game_id ∨ td.player_id ≠ player_id then
    .error (.forbidden "Authentication token does not match player")
  else .ok ()

/-- Result of one handler invocation. -/
structure HResult (α : Type) where
  game : Game
  resp : Except HErr α
  broadcasts : Nat
deriving Repr

/-- Response body of the vote endpoint. -/
inductive VoteResp where
  | complete (result : Option String) (winner : Option String) (st : GameState)
  | waiting (votes_submitted : Nat) (total_players : Nat)
deriving DecidableEq, Repr

/-- `POST /api/games/{game_id}/vote` (`routes/gameplay.py`,
`submit_vote`, lines 237-315), after the session lookup. -/
def submit_vote_handler (g : Game) (game_id : String) (tok : ReqToken)
    (player_id target_id : String) : HResult VoteResp :=
  match verify_token_matches tok game_id player_id with
  | .error e => ⟨g, .error e, 0⟩
  | .ok _ =>
      match can_vote g player_id with
      | (false, msg) => ⟨g, .error (.badRequest msg), 0⟩
      | (true, _) =>
          match session_submit_vote g player_id target_id with
          | .error _ => ⟨g, .error (.badRequest "Invalid vote"), 0⟩
          | .ok g1 =>
              if all_votes_submitted g1 then
                let (g2, result) := tally_votes g1
                let winner := determine_winner g2
                let g3 :=
                  if check_dragon_eliminated g2 then
                    { g2 with state := GameState.DRAGON_GUESS }
                  else
                    match winner with
                    | some w => transition_to_finished g2 w
                    | none => transition_to_playing g2
                ⟨g3, .ok (.complete result winner g3.state), 1⟩
              else
                ⟨g1, .ok (.waiting g1.votes.length (aliveCount g1)), 1⟩

/-- Response body of the guess endpoint. -/
structure GuessResp where
  correct : Bool
  winner : String
deriving DecidableEq, Repr

/-- `POST /api/games/{game_id}/guess-word` (`routes/gameplay.py`,
`guess_word`, lines 318-385), after the session lookup. -/
def guess_word_handler (g : Game) (game_id : String) (tok : ReqToken)
    (player_id : String) (guess : String) : HResult GuessResp :=
  match verify_token_matches tok game_id player_id with
  | .error e => ⟨g, .error e, 0⟩
  | .ok _ =>
      match lookupPlayer g.players player_id with
      | none => ⟨g, .error (.forbidden "Only Dragon can guess the word"), 0⟩
      | some player =>
          if player.role ≠ some Role.dragon then
            ⟨g, .error (.forbidden "Only Dragon can guess the word"), 0⟩
          else if g.state ≠ GameState.DRAGON_GUESS then
            ⟨g, .error (.badRequest "Not in dragon guess phase"), 0⟩
          else if !strTruthy g.villager_word then
            ⟨g, .error (.serverError "Game state error: word not set"), 0⟩
          else
            let guess1 := pyLower (pyStrip guess)
            if guess1.length > 50 then
              ⟨g, .error (.badRequest "Guess too long (max 50 characters)"), 0⟩
            else if guess1.length = 0 then
              ⟨g, .error (.badRequest "Guess cannot be empty"), 0⟩
            else
              let w := match g.villager_word with | some w => w | none => ""
              let correct := guess1 = pyLower w
              let winner := if correct then "dragon" else "villagers"
              let g1 := { g with dragon_guess := some guess1 }
              let g2 := transition_to_finished g1 winner
              ⟨g2, .ok ⟨correct, winner⟩, 1⟩

/-- `POST /api/games/{game_id}/start-voting` (`routes/gameplay.py`,
`start_voting`, lines 83-136), after the session lookup; `now` is the
clock reading used for `voting_started_at`. -/
def start_voting_handler (g : Game) (game_id : String) (tok : ReqToken)
    (player_id : String) (now : Int) : HResult Unit :=
  match verify_token_matches tok game_id player_id with
  | .error e => ⟨g, .error e, 0⟩
  | .ok _ =>
      match lookupPlayer g.players player_id with
      | none => ⟨g, .error (.forbidden "Only host can start voting"), 0⟩
      | some player =>
          if !player.is_host then
            ⟨g, .error (.forbidden "Only host can start voting"), 0⟩
          else
            match can_start_voting g with
            | (false, msg) => ⟨g, .error (.badRequest msg), 0⟩
            | (true, _) =>
                let g1 := transition_to_voting g
                let g2 :=
                  if g1.voting_timer_seconds ≠ none then
                    { g1 with voting_started_at := some now }
                  else g1
                ⟨g2, .ok (), 1⟩

/-- What the timer partial renders. -/
inductive TimerView where
  | hidden
  | expired
  | countdown (remaining : Int)
deriving DecidableEq, Repr

/-- `GET /api/games/{game_id}/timer` (`routes/gameplay.py`, `get_timer`,
lines 139-234), after the session lookup.  The source performs no
authentication here; a missing or dead player just hides the timer.  On
`remaining = 0` in VOTING the handler itself drives the expiry
transition and broadcasts.  The `assert` at line 218 (remaining must be
positive here) is modelled as a server error. -/
def get_timer_handler (g : Game) (player_id : String) (now : Int) :
    HResult TimerView :=
  match lookupPlayer g.players player_id with
  | none => ⟨g, .ok .hidden, 0⟩
  | some player =>
      if !player.is_alive then ⟨g, .ok .hidden, 0⟩
      else if g.state ≠ GameState.VOTING || !timerTruthy g.voting_timer_seconds then
        ⟨g, .ok .hidden, 0⟩
      else
        match get_voting_time_remaining g now with
        | some 0 => ⟨transition_to_playing g, .ok .expired, 1⟩
        | some t => ⟨g, .ok (.countdown t), 0⟩
        | none => ⟨g, .error (.serverError "assert time_remaining"), 0⟩

/-- A sequence of timer-poll requests applied to one session.  Requests
are cooperatively scheduled: the poll handler's synchronous section —
the phase check, the remaining-time computation and the expiry
transition, with no `await` between them — runs as one atomic step, so
any concurrent interleaving of polls is a sequence of handler
invocations.  Returns the final session and the number of expiry
broadcasts performed. -/
def runPolls : Game → List (String × Int) → Game × Nat
  | g, [] => (g, 0)
  | g, q :: rest =>
      let h := get_timer_handler g q.1 q.2
      let r := runPolls h.game rest
      (r.1, h.broadcasts + r.2)

/-- `POST /api/games/{game_id}/set-timer` (`routes/lobby.py`,
`set_timer`, lines 100-137), after the session lookup.  The source
declares no token dependency: the request's cookie jar is passed through
here untouched to make that explicit. -/
def set_timer_handler (g : Game) (_cookies : List (String × String))
    (player_id : String) (timer_seconds : Option Int) : HResult Unit :=
  match lookupPlayer g.players player_id with
  | none => ⟨g, .error (.forbidden "Only host can set timer"), 0⟩
  | some player =>
      if !player.is_host then
        ⟨g, .error (.forbidden "Only host can set timer"), 0⟩
      else
        match set_voting_timer g timer_seconds with
        | .ok g1 => ⟨g1, .ok (), 0⟩
        | .error _ => ⟨g, .error (.badRequest "Timer validation error"), 0⟩

/-! ## Player tokens (`src/app/core/auth.py`)

Strings are modelled as character lists, bytes as naturals.  HMAC-SHA256
is an abstract parameter `mac : key → message → digest` (both sides of
the round trip call the same function, so nothing about SHA-256's
internals is needed); `base64.urlsafe_b64encode` / `urlsafe_b64decode`
are modelled concretely, with `b64decodePy` reproducing `binascii`'s
lenient decoding (non-alphabet characters discarded, data read up to the
first padding character, a trailing group of one sextet rejected). -/

/-- A Python string as its characters. -/
abbrev PyStr := List Char

/-- The Python exception classes relevant to `verify_player_token`:
`binascii.Error` is a subclass of `ValueError`, so both parse failures
and signature-decode failures are `valueError` here; anything else would
escape the function's `except (ValueError, KeyError)` clause. -/
inductive PyExn where
  | valueError
  | keyError
  | otherError
deriving DecidableEq, Repr

/-- The dictionary returned by a successful verification. -/
structure TokenData where
  game_id : PyStr
  player_id : PyStr
  expiry : Int
deriving DecidableEq, Repr

/-- The urlsafe base64 alphabet, value to character. -/
def b64Char (v : Nat) : Char :=
  if v < 26 then Char.ofNat (65 + v)
  else if v < 52 then Char.ofNat (97 + (v - 26))
  else if v < 62 then Char.ofNat (48 + (v - 52))
  else if v = 62 then '-'
  else '_'

/-- Membership in the urlsafe base64 alphabet. -/
def isB64Char (c : Char) : Bool :=
  ('A' ≤ c && c ≤ 'Z') || ('a' ≤ c && c ≤ 'z') || ('0' ≤ c && c ≤ '9') ||
    c = '-' || c = '_'

/-- The urlsafe base64 alphabet, character to value (callers only apply
it to alphabet characters). -/
def b64CharVal (c : Char) : Nat :=
  if 'A' ≤ c && c ≤ 'Z' then c.toNat - 65
  else if 'a' ≤ c && c ≤ 'z' then c.toNat - 97 + 26
  else if '0' ≤ c && c ≤ '9' then c.toNat - 48 + 52
  else if c = '-' then 62
  else 63

/-- Bytes to six-bit groups (24 bits at a time, partial tail kept). -/
def bytesToSextets : List Nat → List Nat
  | b1 :: b2 :: b3 :: rest =>
      b1 / 4 :: ((b1 % 4) * 16 + b2 / 16) :: ((b2 % 16) * 4 + b3 / 64) ::
        (b3 % 64) :: bytesToSextets rest
  | [b1, b2] => [b1 / 4, (b1 % 4) * 16 + b2 / 16, (b2 % 16) * 4]
  | [b1] => [b1 / 4, (b1 % 4) * 16]
  | [] => []

/-- Six-bit groups back to bytes (inverse of `bytesToSextets`). -/
def sextetsToBytes : List Nat → List Nat
  | a :: b :: c :: d :: rest =>
      (a * 4 + b / 16) :: ((b % 16) * 16 + c / 4) :: ((c % 4) * 64 + d) ::
        sextetsToBytes rest
  | [a, b, c] => [a * 4 + b / 16, (b % 16) * 16 + c / 4]
  | [a, b] => [a * 4 + b / 16]
  | _ => []

/-- `base64.urlsafe_b64encode`: sextet characters plus `'='` padding to a
four-character boundary. -/
def b64encodePy (bs : List Nat) : PyStr :=
  (bytesToSextets bs).map b64Char ++
    (match bs.length % 3 with
     | 1 => ['=', '=']
     | 2 => ['=']
     | _ => [])

/-- `base64.urlsafe_b64decode` via `binascii.a2b_base64` (lenient mode):
discard characters outside alphabet-or-padding, read data up to the
first `'='`, reject a dangling single sextet, decode the rest. -/
def b64decodePy (cs : PyStr) : Except PyExn (List Nat) :=
  let valid := cs.filter (fun c => isB64Char c || c = '=')
  let body := valid.takeWhile (fun c => c != '=')
  if body.length % 4 = 1 then .error .valueError
  else .ok (sextetsToBytes (body.map b64CharVal))

/-- `.rstrip("=")`. -/
def rstripEq (cs : PyStr) : PyStr :=
  (cs.reverse.dropWhile (fun c => c = '=')).reverse

/-- `str(n)` for a natural number: decimal digits. -/
def pyStrOfNat (n : Nat) : PyStr :=
  if _h : n < 10 then [Nat.digitChar n]
  else pyStrOfNat (n / 10) ++ [Nat.digitChar (n % 10)]
decreasing_by exact Nat.div_lt_self (by omega) (by omega)

/-- Value of a decimal digit string. -/
def digitsVal (cs : PyStr) : Nat :=
  cs.foldl (fun a c => a * 10 + (c.toNat - 48)) 0

/-- `int(s)` on a string: strip whitespace, optional sign, decimal
digits; anything else raises `ValueError`. -/
def pyInt (cs : PyStr) : Except PyExn Int :=
  match pyStripList cs with
  | [] => .error .valueError
  | c :: ds =>
      if c = '-' then
        if (!ds.isEmpty) && ds.all Char.isDigit then
          .ok (-(digitsVal ds : Int))
        else .error .valueError
      else if c = '+' then
        if (!ds.isEmpty) && ds.all Char.isDigit then
          .ok ((digitsVal ds : Int))
        else .error .valueError
      else
        if (c :: ds).all Char.isDigit then
          .ok ((digitsVal (c :: ds) : Int))
        else .error .valueError

/-- `s.split(sep)` for a one-character separator (Python semantics:
keeps empty segments, `[""]` on the empty string). -/
def splitOnChar (sep : Char) : List Char → List (List Char)
  | [] => [[]]
  | c :: rest =>
      let r := splitOnChar sep rest
      if c = sep then [] :: r
      else
        match r with
        | h :: t => (c :: h) :: t
        | [] => [[c]]

/-- `core.auth.generate_player_token` (src lines 12-38): payload
`game_id:player_id:expiry` signed with HMAC, signature base64 encoded
with padding stripped, token is `payload.signature`; `now` is the
`time.time()` reading and `mac` the HMAC-SHA256 primitive. -/
def generate_player_token (mac : PyStr → PyStr → List Nat)
    (game_id player_id secret_key : PyStr) (now : Nat) : PyStr :=
  let expiry := now + 86400
  let payload := game_id ++ ':' :: player_id ++ ':' :: pyStrOfNat expiry
  let signature := mac secret_key payload
  let signature_b64 := rstripEq (b64encodePy signature)
  payload ++ '.' :: signature_b64

/-- The `try:` block of `core.auth.verify_player_token` (src lines
54-96): split the token, parse and check the expiry, re-add the base64
padding, decode and compare the signature.  Errors are the Python
exceptions raised inside the block. -/
def verifyTokenBody (mac : PyStr → PyStr → List Nat)
    (tk secret_key : PyStr) (now : Nat) : Except PyExn (Option TokenData) :=
  match splitOnChar '.' tk with
  | [payload, signature_b64] =>
      match splitOnChar ':' payload with
      | [game_id, player_id, expiry_str] =>
          match pyInt expiry_str with
          | .error e => .error e
          | .ok expiry =>
              if (now : Int) > expiry then .ok none
              else
                let expected := mac secret_key payload
                let padding := List.replicate (4 - signature_b64.length % 4) '='
                match b64decodePy (signature_b64 ++ padding) with
                | .error e => .error e
                | .ok provided =>
                    if expected = provided then
                      .ok (some ⟨game_id, player_id, expiry⟩)
                    else .ok none
      | _ => .ok none
  | _ => .ok none

/-- `core.auth.verify_player_token` (src lines 41-96): `None`-or-empty
token short-circuits to `None`; the body runs under
`except (ValueError, KeyError): return None`; any other exception class
would propagate to the caller. -/
def verify_player_token (mac : PyStr → PyStr → List Nat)
    (token : Option PyStr) (secret_key : PyStr) (now : Nat) :
    Except PyExn (Option TokenData) :=
  match token with
  | none => .ok none
  | some tk =>
      if tk.isEmpty then .ok none
      else
        match verifyTokenBody mac tk secret_key now with
        | .ok r => .ok r
        | .error .valueError => .ok none
        | .error .keyError => .ok none
        | .error e => .error e

/-! ## Concrete fixtures

A three-player roster (host villager `a`, knight `b`, dragon `c`) in the
phases the theorems are evaluated at. -/

/-- Host villager. -/
def alice : Player :=
  { name := "Alice", is_host := true, is_alive := true
  , role := some Role.villager, knows_word := true }

/-- Knight. -/
def bob : Player :=
  { name := "Bob", is_host := false, is_alive := true
  , role := some Role.knight, knows_word := true }

/-- Dragon. -/
def carol : Player :=
  { name := "Carol", is_host := false, is_alive := true
  , role := some Role.dragon, knows_word := false }

/-- The roster in the lobby. -/
def sessionLobby : Game :=
  { state := GameState.LOBBY
  , players := [("a", alice), ("b", bob), ("c", carol)]
  , villager_word := some "apple"
  , knight_word := some "pear"
  , votes := []
  , winner := none
  , dragon_guess := none
  , voting_timer_seconds := none
  , voting_started_at := none
  , last_eliminated := none }

/-- Mid-round: `a` and `b` have already voted for `c`. -/
def sessionVoting : Game :=
  { sessionLobby with
      state := GameState.VOTING
    , votes := [("a", "c"), ("b", "c")] }

/-- The dragon has been eliminated and must guess. -/
def sessionGuess : Game :=
  { sessionLobby with state := GameState.DRAGON_GUESS }

/-- Voting with a 30-second timer that started at instant 0. -/
def sessionTimer : Game :=
  { sessionVoting with
      voting_timer_seconds := some 30
    , voting_started_at := some 0 }

/-- The round's vote list once the dragon `c` submits the last vote. -/
def sessionVotingFull : Game :=
  { sessionVoting with votes := [("a", "c"), ("b", "c"), ("c", "a")] }

/-- A concrete stand-in for the HMAC-SHA256 primitive used by the token
witnesses (any function of key and message works for the round trip). -/
def macFix : PyStr → PyStr → List Nat :=
  fun k p => (k ++ p).map (fun c => c.toNat % 256) ++ [7, 200]

/-! ## C5 — voting-timer validation -/

/-- C5: while the session is in LOBBY, `set_voting_timer` succeeds for
`none` and for every integer in `[30, 180]`; every non-null value
outside that interval fails with `InvalidTimerValue`; every call in a
state other than LOBBY fails with `InvalidPhase`; and a rejected
`set-timer` route call leaves the session unchanged. -/
theorem set_voting_timer_spec (g : Game) (v : Option Int) :
    (g.state = GameState.LOBBY → v = none →
      set_voting_timer g v = .ok { g with voting_timer_seconds := none })
    ∧ (∀ s : Int, g.state = GameState.LOBBY → v = some s → 30 ≤ s → s ≤ 180 →
      set_voting_timer g v = .ok { g with voting_timer_seconds := some s })
    ∧ (∀ s : Int, v = some s → (s < 30 ∨ 180 < s) → g.state = GameState.LOBBY →
      set_voting_timer g v = .error SessionErr.invalidTimerValue)
    ∧ (g.state ≠ GameState.LOBBY →
      set_voting_timer g v = .error SessionErr.invalidPhase)
    ∧ (∀ ck pid, (set_timer_handler g ck pid v).resp.isOk = false →
      (set_timer_handler g ck pid v).game = g) := by
  refine ⟨?_, ?_, ?_, ?_, ?_⟩
  · intro h1 h2
    subst h2
    simp [set_voting_timer, h1]
  · intro s h1 h2 h3 h4
    subst h2
    simp [set_voting_timer, h1, h3, h4]
  · intro s h2 hout h1
    subst h2
    simp only [set_voting_timer, h1]
    rw [if_neg (by simp)]
    rw [if_neg (by omega)]
  · intro h1
    simp [set_voting_timer, h1]
  · intro ck pid
    unfold set_timer_handler
    cases hl : lookupPlayer g.players pid with
    | none => simp
    | some p =>
      cases hh : p.is_host with
      | false => simp [hh]
      | true =>
        simp only [hh, Bool.not_true]
        cases hs : set_voting_timer g v with
        | ok g1 => simp [Except.isOk, Except.toBool]
        | error e => simp

/-- C5 witness: at the concrete lobby session, disabling works, 30 and
180 succeed, 29 and 181 fail, and a call during VOTING fails with the
phase error. -/
theorem set_voting_timer_spec_w :
    set_voting_timer sessionLobby none
      = .ok { sessionLobby with voting_timer_seconds := none }
    ∧ set_voting_timer sessionLobby (some 30)
      = .ok { sessionLobby with voting_timer_seconds := some 30 }
    ∧ set_voting_timer sessionLobby (some 180)
      = .ok { sessionLobby with voting_timer_seconds := some 180 }
    ∧ set_voting_timer sessionLobby (some 29)
      = .error SessionErr.invalidTimerValue
    ∧ set_voting_timer sessionLobby (some 181)
      = .error SessionErr.invalidTimerValue
    ∧ set_voting_timer sessionVoting (some 60)
      = .error SessionErr.invalidPhase :=
  ⟨(set_voting_timer_spec sessionLobby none).1 rfl rfl,
   (set_voting_timer_spec sessionLobby (some 30)).2.1 30 rfl rfl
     (by norm_num) (by norm_num),
   (set_voting_timer_spec sessionLobby (some 180)).2.1 180 rfl rfl
     (by norm_num) (by norm_num),
   (set_voting_timer_spec sessionLobby (some 29)).2.2.1 29 rfl
     (by norm_num) rfl,
   (set_voting_timer_spec sessionLobby (some 181)).2.2.1 181 rfl
     (by norm_num) rfl,
   (set_voting_timer_spec sessionVoting (some 60)).2.2.2.1 (by decide)⟩

/-! ## C2 / C3 — the dragon's guess -/

/-- Case folding never changes a string's length. -/
theorem pyLower_length (s : String) : (pyLower s).length = s.length :=
  List.length_map s.data pyLowerChar

/-- C2: in DRAGON_GUESS, a guess by the dragon that is non-empty after
trimming and within 50 characters is accepted: the trimmed, case-folded
guess is compared with the case-folded common (villager) word — equality
makes the dragon win, anything else makes the villagers win — the
normalized guess is stored in `dragon_guess`, and the session finishes
with the winner set. -/
theorem guess_word_spec (g : Game) (gid pid guess w : String)
    (tok : ReqToken) (p : Player)
    (ht1 : tok.game_id = gid) (ht2 : tok.player_id = pid)
    (hp : lookupPlayer g.players pid = some p)
    (hrole : p.role = some Role.dragon)
    (hstate : g.state = GameState.DRAGON_GUESS)
    (hw : g.villager_word = some w) (hw0 : w.length ≠ 0)
    (hne : (pyStrip guess).length ≠ 0)
    (hlen : (pyStrip guess).length ≤ 50) :
    (guess_word_handler g gid tok pid guess).game =
      { g with
          dragon_guess := some (pyLower (pyStrip guess))
        , state := GameState.FINISHED
        , winner := some (if pyLower (pyStrip guess) = pyLower w
                          then "dragon" else "villagers") }
    ∧ (guess_word_handler g gid tok pid guess).resp =
        .ok ⟨decide (pyLower (pyStrip guess) = pyLower w),
             if pyLower (pyStrip guess) = pyLower w
             then "dragon" else "villagers"⟩
    ∧ (guess_word_handler g gid tok pid guess).broadcasts = 1 := by
  have hlen' : ¬ (pyLower (pyStrip guess)).length > 50 := by
    rw [pyLower_length]; omega
  have hne' : ¬ (pyLower (pyStrip guess)).length = 0 := by
    rw [pyLower_length]; omega
  have hstr : strTruthy (some w) = true := by
    simp [strTruthy, hw0]
  simp [guess_word_handler, verify_token_matches, ht1, ht2, hp, hrole,
    hstate, hw, hstr, hlen', hne', transition_to_finished]

/-- C3: in DRAGON_GUESS, a guess by the dragon that is empty after
trimming or longer than 50 characters is rejected with a validation
error, the session is left entirely unchanged, and no broadcast is
sent. -/
theorem guess_word_reject (g : Game) (gid pid guess w : String)
    (tok : ReqToken) (p : Player)
    (ht1 : tok.game_id = gid) (ht2 : tok.player_id = pid)
    (hp : lookupPlayer g.players pid = some p)
    (hrole : p.role = some Role.dragon)
    (hstate : g.state = GameState.DRAGON_GUESS)
    (hw : g.villager_word = some w) (hw0 : w.length ≠ 0)
    (hbad : (pyStrip guess).length = 0 ∨ (pyStrip guess).length > 50) :
    (∃ m, (guess_word_handler g gid tok pid guess).resp =
      .error (HErr.badRequest m))
    ∧ (guess_word_handler g gid tok pid guess).game = g
    ∧ (guess_word_handler g gid tok pid guess).broadcasts = 0 := by
  have hstr : strTruthy (some w) = true := by
    simp [strTruthy, hw0]
  rcases hbad with hb | hb
  · have hlen' : ¬ (pyLower (pyStrip guess)).length > 50 := by
      rw [pyLower_length]; omega
    have hne' : (pyLower (pyStrip guess)).length = 0 := by
      rw [pyLower_length]; omega
    simp [guess_word_handler, verify_token_matches, ht1, ht2, hp, hrole,
      hstate, hw, hstr, hlen', hne']
  · have hlen' : (pyLower (pyStrip guess)).length > 50 := by
      rw [pyLower_length]; omega
    simp [guess_word_handler, verify_token_matches, ht1, ht2, hp, hrole,
      hstate, hw, hstr, hlen']

/-- C2 witness: the eliminated dragon guesses `"  APPle "` against the
common word `"apple"` (dragon wins) and the session finishes. -/
theorem guess_word_spec_w :
    (guess_word_handler sessionGuess "G" ⟨"G", "c"⟩ "c" "  APPle ").game =
      { sessionGuess with
          dragon_guess := some "apple"
        , state := GameState.FINISHED
        , winner := some "dragon" }
    ∧ (guess_word_handler sessionGuess "G" ⟨"G", "c"⟩ "c" "  APPle ").resp =
        .ok ⟨true, "dragon"⟩ := by
  have h := guess_word_spec sessionGuess "G" "c" "  APPle " "apple"
    ⟨"G", "c"⟩ carol rfl rfl (by decide) (by decide) (by decide) (by decide)
    (by decide) (by decide) (by decide)
  refine ⟨?_, ?_⟩
  · rw [h.1]
    rfl
  · rw [h.2.1]
    rfl

/-- C3 witness: the dragon submits `"   "` (empty after trimming); the
call is rejected and the session is byte-for-byte unchanged with no
broadcast. -/
theorem guess_word_reject_w :
    (∃ m, (guess_word_handler sessionGuess "G" ⟨"G", "c"⟩ "c" "   ").resp =
      .error (HErr.badRequest m))
    ∧ (guess_word_handler sessionGuess "G" ⟨"G", "c"⟩ "c" "   ").game =
        sessionGuess
    ∧ (guess_word_handler sessionGuess "G" ⟨"G", "c"⟩ "c" "   ").broadcasts
        = 0 :=
  guess_word_reject sessionGuess "G" "c" "   " "apple" ⟨"G", "c"⟩ carol
    rfl rfl (by decide) (by decide) (by decide) (by decide) (by decide)
    (Or.inl (by decide))

/-! ## C4 — vote rejection -/

/-- `can_vote` succeeds exactly for an alive, not-yet-voted, existing
player during VOTING. -/
theorem can_vote_true_iff (g : Game) (pid : String) :
    (can_vote g pid).1 = true ↔
      g.state = GameState.VOTING ∧
      ∃ p, lookupPlayer g.players pid = some p ∧ p.is_alive = true ∧
        hasVoted g pid = false := by
  unfold can_vote
  by_cases hs : g.state = GameState.VOTING
  · cases hl : lookupPlayer g.players pid with
    | none => simp [hs, hl]
    | some p =>
      cases ha : p.is_alive with
      | false => simp [hs, hl, ha]
      | true =>
        cases hv : hasVoted g pid with
        | false => simp [hs, hl, ha, hv]
        | true => simp [hs, hl, ha, hv]
  · simp [hs]

set_option maxRecDepth 4000 in
/-- C4: a vote submission is rejected — with the session, in particular
its vote mapping, left unchanged and nothing broadcast — whenever the
session is not in VOTING, the voter is unknown, the voter is dead, or
the voter has already voted this round (so a resubmission fails instead
of overwriting). -/
theorem submit_vote_reject (g : Game) (gid pid tid : String)
    (tok : ReqToken)
    (ht1 : tok.game_id = gid) (ht2 : tok.player_id = pid)
    (hbad : g.state ≠ GameState.VOTING
      ∨ lookupPlayer g.players pid = none
      ∨ (∃ p, lookupPlayer g.players pid = some p ∧ p.is_alive = false)
      ∨ hasVoted g pid = true) :
    (∃ m, (submit_vote_handler g gid tok pid tid).resp =
      .error (HErr.badRequest m))
    ∧ (submit_vote_handler g gid tok pid tid).game = g
    ∧ (submit_vote_handler g gid tok pid tid).game.votes = g.votes
    ∧ (submit_vote_handler g gid tok pid tid).broadcasts = 0 := by
  have hcv : (can_vote g pid).1 = false := by
    rw [Bool.eq_false_iff]
    intro htrue
    rw [can_vote_true_iff] at htrue
    obtain ⟨hs, p, hp, ha, hv⟩ := htrue
    rcases hbad with h | h | ⟨q, hq, hqa⟩ | h
    · exact h hs
    · rw [h] at hp; cases hp
    · rw [hq] at hp
      cases hp
      rw [hqa] at ha
      cases ha
    · rw [h] at hv; cases hv
  rcases hcp : can_vote g pid with ⟨b, m⟩
  rw [hcp] at hcv
  simp only at hcv
  subst hcv
  simp only [submit_vote_handler, verify_token_matches, ht1, ht2, ne_eq,
    eq_self_iff_true, not_true, or_self, if_false, ite_false, hcp]
  exact ⟨⟨_, rfl⟩, trivial, trivial, trivial⟩

/-- C4 witness: `a` has already voted this round; the resubmission is
rejected and the vote mapping is untouched. -/
theorem submit_vote_reject_w :
    (∃ m, (submit_vote_handler sessionVoting "G" ⟨"G", "a"⟩ "a" "b").resp =
      .error (HErr.badRequest m))
    ∧ (submit_vote_handler sessionVoting "G" ⟨"G", "a"⟩ "a" "b").game =
        sessionVoting
    ∧ (submit_vote_handler sessionVoting "G" ⟨"G", "a"⟩ "a" "b").game.votes
        = sessionVoting.votes
    ∧ (submit_vote_handler sessionVoting "G" ⟨"G", "a"⟩ "a" "b").broadcasts
        = 0 :=
  submit_vote_reject sessionVoting "G" "a" "b" ⟨"G", "a"⟩ rfl rfl
    (Or.inr (Or.inr (Or.inr (by decide))))

/-! ## C1 — round resolution after the last vote -/

/-- C1: when the submitted vote is the round's last eligible vote, the
session resolves by the first matching rule over the tallied state: the
eliminated player's role is Dragon → DRAGON_GUESS; otherwise a winner
from `determine_winner` → FINISHED with that winner; otherwise back to
PLAYING.  The resulting phase is one of exactly these three (they are
mutually exclusive values of one field), and one broadcast follows. -/
theorem submit_vote_resolution (g g1 : Game) (gid pid tid : String)
    (tok : ReqToken)
    (ht1 : tok.game_id = gid) (ht2 : tok.player_id = pid)
    (hcv : (can_vote g pid).1 = true)
    (hsv : session_submit_vote g pid tid = .ok g1)
    (hall : all_votes_submitted g1 = true) :
    (check_dragon_eliminated (tally_votes g1).1 = true →
        (submit_vote_handler g gid tok pid tid).game =
          { (tally_votes g1).1 with state := GameState.DRAGON_GUESS }
        ∧ (submit_vote_handler g gid tok pid tid).game.state =
            GameState.DRAGON_GUESS)
    ∧ (∀ w, check_dragon_eliminated (tally_votes g1).1 = false →
        determine_winner (tally_votes g1).1 = some w →
        (submit_vote_handler g gid tok pid tid).game =
          transition_to_finished (tally_votes g1).1 w
        ∧ (submit_vote_handler g gid tok pid tid).game.state =
            GameState.FINISHED
        ∧ (submit_vote_handler g gid tok pid tid).game.winner = some w)
    ∧ (check_dragon_eliminated (tally_votes g1).1 = false →
        determine_winner (tally_votes g1).1 = none →
        (submit_vote_handler g gid tok pid tid).game =
          transition_to_playing (tally_votes g1).1
        ∧ (submit_vote_handler g gid tok pid tid).game.state =
            GameState.PLAYING)
    ∧ ((submit_vote_handler g gid tok pid tid).game.state =
          GameState.DRAGON_GUESS
        ∨ (submit_vote_handler g gid tok pid tid).game.state =
            GameState.FINISHED
        ∨ (submit_vote_handler g gid tok pid tid).game.state =
            GameState.PLAYING)
    ∧ (submit_vote_handler g gid tok pid tid).broadcasts = 1 := by
  rcases hcp : can_vote g pid with ⟨b, m⟩
  have hb : b = true := by rw [hcp] at hcv; simpa using hcv
  subst hb
  rcases ht : tally_votes g1 with ⟨g2, res⟩
  simp only [submit_vote_handler, verify_token_matches, ht1, ht2, ne_eq,
    eq_self_iff_true, not_true, or_self, if_false, ite_false, hcp, hsv,
    hall, ht, if_true, ite_true]
  refine ⟨?_, ?_, ?_, ?_, trivial⟩
  · intro hd
    simp [hd]
  · intro w hd hw
    simp [hd, hw, transition_to_finished]
  · intro hd hw
    simp [hd, hw, transition_to_playing]
  · cases hd : check_dragon_eliminated g2 with
    | true => simp [hd]
    | false =>
      cases hw : determine_winner g2 with
      | none => simp [hd, hw, transition_to_playing]
      | some w => simp [hd, hw, transition_to_finished]

/-- C1 witness: `c` (the dragon) submits the last vote; the tally
eliminates `c`, so the session moves to DRAGON_GUESS with one
broadcast. -/
theorem submit_vote_resolution_w :
    (submit_vote_handler sessionVoting "G" ⟨"G", "c"⟩ "c" "a").game.state =
      GameState.DRAGON_GUESS
    ∧ (submit_vote_handler sessionVoting "G" ⟨"G", "c"⟩ "c" "a").broadcasts
        = 1 := by
  have h := submit_vote_resolution sessionVoting sessionVotingFull "G" "c"
    "a" ⟨"G", "c"⟩ rfl rfl (by decide) rfl (by decide)
  exact ⟨(h.1 (by decide)).2, h.2.2.2.2⟩

/-! ## C6 — timer computation and lazy expiry -/

/-- C6: `get_voting_time_remaining` is `none` when no timer is
configured and otherwise `max(0, timer - elapsed)`, recomputed from the
stored start instant and the clock reading passed in; and a timer poll
that observes remaining `= 0` while the session is VOTING transitions it
back to PLAYING with the roster — in particular every `is_alive` flag —
untouched, rendering the expired view with one broadcast. -/
theorem timer_remaining_spec (g : Game) (now : Int) (pid : String)
    (p : Player) :
    (g.voting_timer_seconds = none → get_voting_time_remaining g now = none)
    ∧ (∀ t s, g.voting_timer_seconds = some t →
        g.voting_started_at = some s →
        get_voting_time_remaining g now = some (max 0 (t - (now - s))))
    ∧ (lookupPlayer g.players pid = some p → p.is_alive = true →
        g.state = GameState.VOTING →
        timerTruthy g.voting_timer_seconds = true →
        get_voting_time_remaining g now = some 0 →
          (get_timer_handler g pid now).game = transition_to_playing g
          ∧ (get_timer_handler g pid now).game.state = GameState.PLAYING
          ∧ (get_timer_handler g pid now).game.players = g.players
          ∧ (get_timer_handler g pid now).resp = .ok TimerView.expired
          ∧ (get_timer_handler g pid now).broadcasts = 1) := by
  refine ⟨?_, ?_, ?_⟩
  · intro h
    simp [get_voting_time_remaining, h]
  · intro t s h1 h2
    simp [get_voting_time_remaining, h1, h2]
  · intro hp ha hs htt hr
    simp [get_timer_handler, hp, ha, hs, htt, hr, transition_to_playing]

/-- C6 witness: timer 30s, voting started at instant 0, polled at
instant 31 by the alive host: remaining is 0 and the poll moves the
session back to PLAYING with the roster unchanged. -/
theorem timer_remaining_spec_w :
    get_voting_time_remaining sessionTimer 31 = some 0
    ∧ (get_timer_handler sessionTimer "a" 31).game.state =
        GameState.PLAYING
    ∧ (get_timer_handler sessionTimer "a" 31).game.players =
        sessionTimer.players := by
  have h := (timer_remaining_spec sessionTimer 31 "a" alice).2.2
    (by decide) (by decide) (by decide) (by decide) (by decide)
  exact ⟨by decide, h.2.1, h.2.2.1⟩

/-! ## C8 — the expiry transition fires at most once -/

/-- One timer poll either leaves the session untouched without
broadcasting, or — only when the phase is still VOTING — performs the
expiry transition to PLAYING with its single broadcast. -/
theorem get_timer_step (g : Game) (pid : String) (now : Int) :
    ((get_timer_handler g pid now).broadcasts = 0
      ∧ (get_timer_handler g pid now).game = g)
    ∨ ((get_timer_handler g pid now).broadcasts = 1
      ∧ g.state = GameState.VOTING
      ∧ (get_timer_handler g pid now).game.state = GameState.PLAYING) := by
  unfold get_timer_handler
  cases hl : lookupPlayer g.players pid with
  | none => simp
  | some p =>
    cases ha : p.is_alive with
    | false => simp [ha]
    | true =>
      by_cases hs : g.state = GameState.VOTING
      · cases htt : timerTruthy g.voting_timer_seconds with
        | false => simp [ha, hs, htt]
        | true =>
          rcases hr : get_voting_time_remaining g now with _ | t
          · simp [ha, hs, htt, hr]
          · by_cases ht0 : t = 0
            · subst ht0
              simp [ha, hs, htt, hr, transition_to_playing]
            · simp [ha, hs, htt, hr, ht0]
      · simp [ha, hs]

/-- After a poll that did not transition, or from any non-VOTING state,
no later poll broadcasts. -/
theorem runPolls_zero_of_not_voting (ps : List (String × Int)) (g : Game)
    (h : g.state ≠ GameState.VOTING) : (runPolls g ps).2 = 0 := by
  induction ps generalizing g with
  | nil => rfl
  | cons q rest ih =>
    rcases get_timer_step g q.1 q.2 with ⟨hb, hg⟩ | ⟨_, hs, _⟩
    · simp only [runPolls, hg, hb]
      simpa using ih g h
    · exact absurd hs h

/-- C8: over any interleaving of concurrently issued timer polls on one
session — modelled as a sequence of atomic handler invocations, which is
what the handler's await-free check-then-transition section guarantees —
at most one poll performs the VOTING → PLAYING expiry transition and its
broadcast. -/
theorem timer_expiry_at_most_once (g : Game) (ps : List (String × Int)) :
    (runPolls g ps).2 ≤ 1 := by
  induction ps generalizing g with
  | nil => simp [runPolls]
  | cons q rest ih =>
    simp only [runPolls]
    rcases get_timer_step g q.1 q.2 with ⟨hb, hg⟩ | ⟨hb, hs, hp⟩
    · rw [hb, hg]
      simpa using ih g
    · rw [hb]
      have h0 : (runPolls (get_timer_handler g q.1 q.2).game rest).2 = 0 :=
        runPolls_zero_of_not_voting rest _ (by rw [hp]; intro hc; cases hc)
      omega

/-! ## C7 — which mutating routes are authenticated -/

/-- C7 counterexample: the `set-timer` route mutates session state for a
request that carries no credential at all — `src/app/routes/lobby.py`
declares no token dependency for `set_timer` (or `start_game`), and the
handler never reads the request's cookie jar, here passed empty — so it
is false that every state-mutating operation runs only after the
caller's credential has been verified, and there is no identity check
that could fail with Forbidden. -/
theorem set_timer_mutates_without_credential :
    (set_timer_handler sessionLobby [] "a" (some 60)).resp = .ok ()
    ∧ (set_timer_handler sessionLobby [] "a"
        (some 60)).game.voting_timer_seconds = some 60
    ∧ sessionLobby.voting_timer_seconds = none :=
  ⟨rfl, rfl, rfl⟩

/-- C7 amended: the token-authenticated mutating routes — start-voting,
vote submission and the dragon guess — verify the authenticated identity
against the targeted player before anything else: on a mismatch each
fails with Forbidden, leaves the session unchanged and broadcasts
nothing.  The remaining mutating routes (`start_game`, `set_timer`, and
the expiry transition inside the unauthenticated `get_timer` poll) run
without any credential verification. -/
theorem authenticated_routes_reject_mismatch (g : Game)
    (gid pid tid guess : String) (tok : ReqToken) (now : Int)
    (hmis : tok.game_id ≠ gid ∨ tok.player_id ≠ pid) :
    start_voting_handler g gid tok pid now =
      ⟨g, .error (.forbidden "Authentication token does not match player"),
       0⟩
    ∧ submit_vote_handler g gid tok pid tid =
      ⟨g, .error (.forbidden "Authentication token does not match player"),
       0⟩
    ∧ guess_word_handler g gid tok pid guess =
      ⟨g, .error (.forbidden "Authentication token does not match player"),
       0⟩ := by
  have hv : verify_token_matches tok gid pid =
      .error (.forbidden "Authentication token does not match player") := by
    unfold verify_token_matches
    rw [if_pos hmis]
  refine ⟨?_, ?_, ?_⟩
  · simp only [start_voting_handler, hv]
  · simp only [submit_vote_handler, hv]
  · simp only [guess_word_handler, hv]

/-- C7 amended witness: a token authenticated for player `zzz` cannot
submit `c`'s vote; the call fails Forbidden and mutates nothing. -/
theorem authenticated_routes_reject_mismatch_w :
    submit_vote_handler sessionVoting "G" ⟨"G", "zzz"⟩ "c" "a" =
      ⟨sessionVoting,
       .error (.forbidden "Authentication token does not match player"),
       0⟩ :=
  (authenticated_routes_reject_mismatch sessionVoting "G" "c" "a" "x"
    ⟨"G", "zzz"⟩ 0 (Or.inr (by decide))).2.1

/-! ## C10 — `verify_player_token` never raises -/

/-- `int(s)` only raises `ValueError`. -/
theorem pyInt_error_eq (cs : PyStr) (e : PyExn)
    (h : pyInt cs = .error e) : e = .valueError := by
  unfold pyInt at h
  split at h
  · simp_all
  · split_ifs at h <;> simp_all

/-- Base64 decoding only raises `binascii.Error`, a `ValueError`. -/
theorem b64decodePy_error_eq (cs : PyStr) (e : PyExn)
    (h : b64decodePy cs = .error e) : e = .valueError := by
  unfold b64decodePy at h
  dsimp only at h
  split_ifs at h
  simp_all

/-- Every exception the verification body can raise is a `ValueError`:
the parses are the only raisers, and both raise `ValueError`. -/
theorem verifyTokenBody_error_eq (mac : PyStr → PyStr → List Nat)
    (tk secret_key : PyStr) (now : Nat) (e : PyExn)
    (h : verifyTokenBody mac tk secret_key now = .error e) :
    e = .valueError := by
  unfold verifyTokenBody at h
  split at h
  · split at h
    · split at h
      · rename_i e2 heq
        cases h
        exact pyInt_error_eq _ _ heq
      · split at h
        · cases h
        · dsimp only at h
          split at h
          · rename_i e2 heq
            cases h
            exact b64decodePy_error_eq _ _ heq
          · split at h <;> cases h
    · cases h
  · cases h

/-- C10: `verify_player_token` is total at its public interface — for
every token (absent, empty, or arbitrary), secret key, clock reading and
HMAC primitive it returns a token-data dictionary or `None`, and never
lets an exception escape: everything raised inside the body is a
`ValueError` or `KeyError`, which the handler turns into `None`. -/
theorem verify_player_token_total (mac : PyStr → PyStr → List Nat)
    (token : Option PyStr) (secret_key : PyStr) (now : Nat) :
    ∃ r, verify_player_token mac token secret_key now = .ok r := by
  unfold verify_player_token
  cases token with
  | none => exact ⟨none, rfl⟩
  | some tk =>
    by_cases he : tk.isEmpty = true
    · exact ⟨none, by simp [he]⟩
    · cases hb : verifyTokenBody mac tk secret_key now with
      | ok r => exact ⟨r, by simp [he, hb]⟩
      | error e =>
        have hv := verifyTokenBody_error_eq mac tk secret_key now e hb
        subst hv
        exact ⟨none, by simp [he, hb]⟩

/-! ## C9 — token round trip: helper lemmas -/

/-- `Nat.digitChar` on a decimal digit: it is a digit character, its
code recovers the digit, and it collides with no token delimiter. -/
theorem digitChar_facts :
    ∀ d : Fin 10, (Nat.digitChar d.val).isDigit = true
      ∧ (Nat.digitChar d.val).toNat - 48 = d.val := by
  decide

/-- A digit character is none of the delimiters and not whitespace. -/
theorem isDigit_ne (c : Char) (h : c.isDigit = true) :
    c ≠ '-' ∧ c ≠ '+' ∧ c ≠ '.' ∧ c ≠ ':' ∧ isPySpace c = false := by
  have h1 : c ≠ '-' := by rintro rfl; exact absurd h (by decide)
  have h2 : c ≠ '+' := by rintro rfl; exact absurd h (by decide)
  have h3 : c ≠ '.' := by rintro rfl; exact absurd h (by decide)
  have h4 : c ≠ ':' := by rintro rfl; exact absurd h (by decide)
  have h5 : isPySpace c = false := by
    have s1 : c ≠ ' ' := by rintro rfl; exact absurd h (by decide)
    have s2 : c ≠ '\t' := by rintro rfl; exact absurd h (by decide)
    have s3 : c ≠ '\n' := by rintro rfl; exact absurd h (by decide)
    have s4 : c ≠ '\x0d' := by rintro rfl; exact absurd h (by decide)
    have s5 : c ≠ '\x0b' := by rintro rfl; exact absurd h (by decide)
    have s6 : c ≠ '\x0c' := by rintro rfl; exact absurd h (by decide)
    simp [isPySpace, s1, s2, s3, s4, s5, s6]
  exact ⟨h1, h2, h3, h4, h5⟩

/-- Decimal rendering is never empty. -/
theorem pyStrOfNat_ne_nil (n : Nat) : pyStrOfNat n ≠ [] := by
  unfold pyStrOfNat
  split
  · simp
  · simp

/-- Every character of a decimal rendering is a digit. -/
theorem pyStrOfNat_digits (n : Nat) :
    ∀ c ∈ pyStrOfNat n, c.isDigit = true := by
  induction n using Nat.strong_induction_on with
  | _ n ih =>
    unfold pyStrOfNat
    split
    · rename_i h
      intro c hc
      simp only [List.mem_singleton] at hc
      subst hc
      exact (digitChar_facts ⟨n, h⟩).1
    · rename_i h
      intro c hc
      rw [List.mem_append] at hc
      rcases hc with hc | hc
      · exact ih (n / 10) (Nat.div_lt_self (by omega) (by omega)) c hc
      · simp only [List.mem_singleton] at hc
        subst hc
        exact (digitChar_facts ⟨n % 10, Nat.mod_lt _ (by omega)⟩).1

/-- Appending one digit multiplies the accumulated value by ten. -/
theorem digitsVal_append (xs : PyStr) (c : Char) :
    digitsVal (xs ++ [c]) = digitsVal xs * 10 + (c.toNat - 48) := by
  simp [digitsVal, List.foldl_append]

/-- Parsing the decimal rendering recovers the number. -/
theorem digitsVal_pyStrOfNat (n : Nat) : digitsVal (pyStrOfNat n) = n := by
  induction n using Nat.strong_induction_on with
  | _ n ih =>
    unfold pyStrOfNat
    split
    · rename_i h
      have hd : (Nat.digitChar n).toNat - 48 = n := (digitChar_facts ⟨n, h⟩).2
      simp [digitsVal]
      omega
    · rename_i h
      rw [digitsVal_append, ih (n / 10) (Nat.div_lt_self (by omega) (by omega))]
      have hd : (Nat.digitChar (n % 10)).toNat - 48 = n % 10 :=
        (digitChar_facts ⟨n % 10, Nat.mod_lt _ (by omega)⟩).2
      omega

/-- `dropWhile` is the identity when no element satisfies the
predicate. -/
theorem dropWhile_eq_self_of (p : Char → Bool) (l : PyStr)
    (h : ∀ c ∈ l, p c = false) : l.dropWhile p = l := by
  cases l with
  | nil => rfl
  | cons c t => simp [List.dropWhile_cons, h c (List.mem_cons_self c t)]

/-- `str.strip()` is the identity on strings with no edge whitespace. -/
theorem pyStripList_eq_self (l : PyStr)
    (h : ∀ c ∈ l, isPySpace c = false) : pyStripList l = l := by
  unfold pyStripList
  rw [dropWhile_eq_self_of _ _ h]
  rw [dropWhile_eq_self_of _ _ (fun c hc => h c (List.mem_reverse.mp hc))]
  exact List.reverse_reverse l

/-- `int(str(n)) = n`. -/
theorem pyInt_pyStrOfNat (n : Nat) : pyInt (pyStrOfNat n) = .ok (n : Int) := by
  have hdig := pyStrOfNat_digits n
  have hne := pyStrOfNat_ne_nil n
  have hstrip : pyStripList (pyStrOfNat n) = pyStrOfNat n :=
    pyStripList_eq_self _ (fun c hc => (isDigit_ne c (hdig c hc)).2.2.2.2)
  unfold pyInt
  rw [hstrip]
  cases hsn : pyStrOfNat n with
  | nil => exact absurd hsn hne
  | cons c ds =>
    rw [hsn] at hdig
    have hc := hdig c (List.mem_cons_self c ds)
    have hall : (c :: ds).all Char.isDigit = true := by
      rw [List.all_eq_true]
      exact hdig
    dsimp only
    rw [if_neg (isDigit_ne c hc).1, if_neg (isDigit_ne c hc).2.1,
      if_pos hall]
    rw [← hsn, digitsVal_pyStrOfNat]

/-- Splitting a separator-free string returns it whole. -/
theorem splitOnChar_of_not_mem (sep : Char) (a : PyStr) (h : sep ∉ a) :
    splitOnChar sep a = [a] := by
  induction a with
  | nil => rfl
  | cons c t ih =>
    have hc : ¬(c = sep) := by
      rintro rfl
      exact h (List.mem_cons_self _ _)
    have ht : sep ∉ t := fun hm => h (List.mem_cons_of_mem _ hm)
    simp only [splitOnChar, ih ht, if_neg hc]

/-- Splitting at the first separator occurrence peels off the prefix. -/
theorem splitOnChar_append (sep : Char) (a b : PyStr) (h : sep ∉ a) :
    splitOnChar sep (a ++ sep :: b) = a :: splitOnChar sep b := by
  induction a with
  | nil => simp [splitOnChar]
  | cons c t ih =>
    have hc : ¬(c = sep) := by
      rintro rfl
      exact h (List.mem_cons_self _ _)
    have ht : sep ∉ t := fun hm => h (List.mem_cons_of_mem _ hm)
    simp only [List.cons_append, splitOnChar, List.append_eq, ih ht,
      if_neg hc]

/-- Alphabet facts for every six-bit value: decoding inverts encoding,
the character is in the urlsafe alphabet, and it is neither padding nor
the token separator. -/
theorem b64Char_classes :
    ∀ v : Fin 64, b64CharVal (b64Char v.val) = v.val
      ∧ isB64Char (b64Char v.val) = true
      ∧ b64Char v.val ≠ '=' ∧ b64Char v.val ≠ '.' := by
  decide

/-- Sextets built from bytes are six-bit values. -/
theorem bytesToSextets_lt : ∀ (bs : List Nat), (∀ b ∈ bs, b < 256) →
    ∀ v ∈ bytesToSextets bs, v < 64
  | [], _ => by simp [bytesToSextets]
  | [b1], h => by
      have h1 : b1 < 256 := h _ (by simp)
      intro v hv
      simp [bytesToSextets] at hv
      rcases hv with rfl | rfl <;> omega
  | [b1, b2], h => by
      have h1 : b1 < 256 := h _ (by simp)
      have h2 : b2 < 256 := h _ (by simp)
      intro v hv
      simp [bytesToSextets] at hv
      rcases hv with rfl | rfl | rfl <;> omega
  | b1 :: b2 :: b3 :: rest, h => by
      have h1 : b1 < 256 := h _ (by simp)
      have h2 : b2 < 256 := h _ (by simp)
      have h3 : b3 < 256 := h _ (by simp)
      have ih := bytesToSextets_lt rest (fun b hb => h b (by simp [hb]))
      intro v hv
      simp only [bytesToSextets, List.mem_cons] at hv
      rcases hv with rfl | rfl | rfl | rfl | hv
      · omega
      · omega
      · omega
      · omega
      · exact ih v hv

/-- Regrouping six-bit values back into bytes inverts the grouping. -/
theorem sextets_bytes_roundtrip : ∀ (bs : List Nat),
    (∀ b ∈ bs, b < 256) → sextetsToBytes (bytesToSextets bs) = bs
  | [], _ => rfl
  | [b1], h => by
      have h1 : b1 < 256 := h _ (by simp)
      simp [bytesToSextets, sextetsToBytes]
      omega
  | [b1, b2], h => by
      have h1 : b1 < 256 := h _ (by simp)
      have h2 : b2 < 256 := h _ (by simp)
      simp [bytesToSextets, sextetsToBytes]
      constructor <;> omega
  | b1 :: b2 :: b3 :: rest, h => by
      have h1 : b1 < 256 := h _ (by simp)
      have h2 : b2 < 256 := h _ (by simp)
      have h3 : b3 < 256 := h _ (by simp)
      have ih := sextets_bytes_roundtrip rest (fun b hb => h b (by simp [hb]))
      simp [bytesToSextets, sextetsToBytes, ih]
      refine ⟨?_, ?_, ?_⟩ <;> omega

/-- The sextet list's length is never `1 (mod 4)`. -/
theorem bytesToSextets_mod : ∀ (bs : List Nat),
    (bytesToSextets bs).length % 4 ≠ 1
  | [] => by simp [bytesToSextets]
  | [b1] => by simp [bytesToSextets]
  | [b1, b2] => by simp [bytesToSextets]
  | b1 :: b2 :: b3 :: rest => by
      have ih := bytesToSextets_mod rest
      simp only [bytesToSextets, List.length_cons]
      omega

/-- Mapping a function that fixes every member is the identity. -/
theorem map_eq_self_of_mem {α : Type} (f : α → α) (l : List α)
    (h : ∀ x ∈ l, f x = x) : l.map f = l := by
  induction l with
  | nil => rfl
  | cons c t ih =>
    simp [h c (List.mem_cons_self c t),
      ih (fun x hx => h x (List.mem_cons_of_mem _ hx))]

/-- `takeWhile` reads exactly the padding-free prefix. -/
theorem takeWhile_append_pad (A : PyStr) (k : Nat)
    (hA : ∀ c ∈ A, c ≠ '=') :
    List.takeWhile (fun c => c != '=')
      (A ++ List.replicate (k + 1) '=') = A := by
  induction A with
  | nil => simp [List.replicate_succ]
  | cons c t ih =>
    have hc : (c != '=') = true := by
      simp [hA c (List.mem_cons_self _ _)]
    simp [List.takeWhile_cons, hc,
      ih (fun x hx => hA x (List.mem_cons_of_mem _ hx))]

/-- `.rstrip("=")` removes exactly a trailing padding run. -/
theorem rstripEq_append_replicate (a : PyStr) (k : Nat)
    (h : ∀ c ∈ a, c ≠ '=') :
    rstripEq (a ++ List.replicate k '=') = a := by
  unfold rstripEq
  rw [List.reverse_append, List.reverse_replicate]
  have h1 : List.dropWhile (fun c => decide (c = '='))
      (List.replicate k '=' ++ a.reverse)
      = List.dropWhile (fun c => decide (c = '=')) a.reverse := by
    induction k with
    | zero => rfl
    | succ m ih =>
        simp only [List.replicate_succ, List.cons_append,
          List.dropWhile_cons]
        simp only [decide_True, if_true]
        exact ih
  rw [h1]
  rw [dropWhile_eq_self_of _ _ ?hmem, List.reverse_reverse]
  case hmem =>
    intro c hc
    have := h c (List.mem_reverse.mp hc)
    simp [this]

/-- The urlsafe-alphabet facts for every character of an encoded
digest. -/
theorem b64Alphabet (dig : List Nat) (h : ∀ b ∈ dig, b < 256) :
    ∀ c ∈ (bytesToSextets dig).map b64Char,
      isB64Char c = true ∧ c ≠ '=' ∧ c ≠ '.' := by
  have hsx := bytesToSextets_lt dig h
  intro c hc
  rw [List.mem_map] at hc
  obtain ⟨v, hv, rfl⟩ := hc
  have hv64 := hsx v hv
  exact ⟨(b64Char_classes ⟨v, hv64⟩).2.1, (b64Char_classes ⟨v, hv64⟩).2.2.1,
    (b64Char_classes ⟨v, hv64⟩).2.2.2⟩

/-- Stripping the `'='` padding from an encoded digest leaves exactly
the sextet characters. -/
theorem rstrip_b64encode (dig : List Nat) (h : ∀ b ∈ dig, b < 256) :
    rstripEq (b64encodePy dig) = (bytesToSextets dig).map b64Char := by
  have hAlph := b64Alphabet dig h
  have hpad : ∃ p, b64encodePy dig =
      (bytesToSextets dig).map b64Char ++ List.replicate p '=' := by
    unfold b64encodePy
    rcases h3 : dig.length % 3 with _ | _ | _ | k
    · exact ⟨0, by simp⟩
    · exact ⟨2, by simp⟩
    · exact ⟨1, by simp⟩
    · exfalso
      have := Nat.mod_lt dig.length (show 0 < 3 by norm_num)
      omega
  obtain ⟨p, hpad⟩ := hpad
  rw [hpad]
  exact rstripEq_append_replicate _ p (fun c hc => (hAlph c hc).2.1)

/-- Re-adding the padding the verifier computes and decoding recovers
the digest bytes exactly. -/
theorem b64_decode_encode (dig : List Nat) (h : ∀ b ∈ dig, b < 256) :
    b64decodePy ((bytesToSextets dig).map b64Char ++
      List.replicate
        (4 - ((bytesToSextets dig).map b64Char).length % 4) '=')
      = .ok dig := by
  have hsx := bytesToSextets_lt dig h
  have hAlph := b64Alphabet dig h
  obtain ⟨k, hk⟩ : ∃ k,
      4 - ((bytesToSextets dig).map b64Char).length % 4 = k + 1 := by
    have hlt : ((bytesToSextets dig).map b64Char).length % 4 < 4 :=
      Nat.mod_lt _ (by norm_num)
    exact ⟨3 - ((bytesToSextets dig).map b64Char).length % 4, by omega⟩
  rw [hk]
  unfold b64decodePy
  have hfilter : List.filter (fun c => isB64Char c || decide (c = '='))
      ((bytesToSextets dig).map b64Char ++ List.replicate (k + 1) '=')
      = (bytesToSextets dig).map b64Char ++ List.replicate (k + 1) '=' := by
    rw [List.filter_eq_self]
    intro c hc
    rw [List.mem_append] at hc
    rcases hc with hc | hc
    · simp [(hAlph c hc).1]
    · have hce : c = '=' := List.eq_of_mem_replicate hc
      simp [hce]
  have hbody : List.takeWhile (fun c => c != '=')
      ((bytesToSextets dig).map b64Char ++ List.replicate (k + 1) '=')
      = (bytesToSextets dig).map b64Char :=
    takeWhile_append_pad _ k (fun c hc => (hAlph c hc).2.1)
  dsimp only
  rw [hfilter, hbody]
  rw [if_neg ?hmod]
  case hmod =>
    rw [List.length_map]
    exact bytesToSextets_mod dig
  have hmap : ((bytesToSextets dig).map b64Char).map b64CharVal =
      bytesToSextets dig := by
    rw [List.map_map]
    exact map_eq_self_of_mem _ _
      (fun v hv => (b64Char_classes ⟨v, hsx v hv⟩).1)
  rw [hmap, sextets_bytes_roundtrip dig h]

/-- A list with a forced element is never empty. -/
theorem append_cons_isEmpty (a : PyStr) (c : Char) (b : PyStr) :
    (a ++ c :: b).isEmpty = false := by
  cases a <;> rfl

/-- Evaluation of the verification body along the successful path,
with each computational step supplied as an equation. -/
theorem verifyTokenBody_happy (mac : PyStr → PyStr → List Nat)
    (tk P A gid pid ds key : PyStr) (now1 : Nat) (expiry : Int)
    (hs1 : splitOnChar '.' tk = [P, A])
    (hs2 : splitOnChar ':' P = [gid, pid, ds])
    (hpi : pyInt ds = .ok expiry)
    (hexp : ¬((now1 : Int) > expiry))
    (hb64 : b64decodePy (A ++ List.replicate (4 - A.length % 4) '=')
      = .ok (mac key P)) :
    verifyTokenBody mac tk key now1 = .ok (some ⟨gid, pid, expiry⟩) := by
  simp only [verifyTokenBody]
  rw [hs1]
  dsimp only
  rw [hs2]
  dsimp only
  rw [hpi]
  dsimp only
  rw [if_neg hexp]
  rw [hb64]
  dsimp only
  rw [if_pos rfl]

/-- A non-empty token with a successful body verifies to the body's
result. -/
theorem verify_player_token_ok (mac : PyStr → PyStr → List Nat)
    (tk key : PyStr) (now1 : Nat) (r : Option TokenData)
    (hne : tk.isEmpty = false)
    (hbody : verifyTokenBody mac tk key now1 = .ok r) :
    verify_player_token mac (some tk) key now1 = .ok r := by
  simp only [verify_player_token]
  rw [if_neg (by rw [hne]; simp)]
  rw [hbody]

/-- C9: token round trip — for every game id and player id free of
`':'` and `'.'`, every secret key, and every HMAC primitive producing
byte digests, verifying a freshly generated token with the same key at
any time not later than issuance plus 24 hours (86400 s) returns the
original game id and player id together with the embedded expiry. -/
theorem token_roundtrip (mac : PyStr → PyStr → List Nat)
    (gid pid key : PyStr) (now0 now1 : Nat)
    (hg1 : '.' ∉ gid) (hg2 : ':' ∉ gid)
    (hq1 : '.' ∉ pid) (hq2 : ':' ∉ pid)
    (hmac : ∀ k p b, b ∈ mac k p → b < 256)
    (htime : now1 ≤ now0 + 86400) :
    verify_player_token mac
      (some (generate_player_token mac gid pid key now0)) key now1 =
      .ok (some ⟨gid, pid, ((now0 + 86400 : Nat) : Int)⟩) := by
  have hdig256 : ∀ b ∈ mac key
      (gid ++ ':' :: pid ++ ':' :: pyStrOfNat (now0 + 86400)), b < 256 :=
    fun b hb => hmac _ _ b hb
  have hdsd := pyStrOfNat_digits (now0 + 86400)
  have hdsdot : '.' ∉ pyStrOfNat (now0 + 86400) :=
    fun hc => absurd (hdsd _ hc) (by decide)
  have hdscol : ':' ∉ pyStrOfNat (now0 + 86400) :=
    fun hc => absurd (hdsd _ hc) (by decide)
  have hAdot : '.' ∉ (bytesToSextets (mac key
      (gid ++ ':' :: pid ++ ':' :: pyStrOfNat (now0 + 86400)))).map
        b64Char :=
    fun hc => (b64Alphabet _ hdig256 _ hc).2.2 rfl
  have hpaydot :
      '.' ∉ gid ++ ':' :: pid ++ ':' :: pyStrOfNat (now0 + 86400) := by
    intro hc
    simp only [List.mem_append, List.mem_cons] at hc
    rcases hc with (hc | hc | hc) | hc | hc
    · exact hg1 hc
    · exact absurd hc (by decide)
    · exact hq1 hc
    · exact absurd hc (by decide)
    · exact hdsdot hc
  have hpayEq : gid ++ ':' :: pid ++ ':' :: pyStrOfNat (now0 + 86400) =
      gid ++ ':' :: (pid ++ ':' :: pyStrOfNat (now0 + 86400)) := by
    simp [List.append_assoc]
  have htok : generate_player_token mac gid pid key now0 =
      (gid ++ ':' :: pid ++ ':' :: pyStrOfNat (now0 + 86400)) ++
        '.' :: ((bytesToSextets (mac key
          (gid ++ ':' :: pid ++ ':' :: pyStrOfNat (now0 + 86400)))).map
            b64Char) := by
    show (gid ++ ':' :: pid ++ ':' :: pyStrOfNat (now0 + 86400)) ++
        '.' :: rstripEq (b64encodePy (mac key
          (gid ++ ':' :: pid ++ ':' :: pyStrOfNat (now0 + 86400)))) = _
    rw [rstrip_b64encode _ hdig256]
  refine verify_player_token_ok mac _ key now1 _ ?_ ?_
  · rw [htok]
    exact append_cons_isEmpty _ _ _
  · refine verifyTokenBody_happy mac _
      (gid ++ ':' :: pid ++ ':' :: pyStrOfNat (now0 + 86400))
      ((bytesToSextets (mac key
        (gid ++ ':' :: pid ++ ':' :: pyStrOfNat (now0 + 86400)))).map
          b64Char)
      gid pid (pyStrOfNat (now0 + 86400)) key now1
      ((now0 + 86400 : Nat) : Int) ?_ ?_ ?_ ?_ ?_
    · rw [htok, splitOnChar_append '.' _ _ hpaydot,
        splitOnChar_of_not_mem '.' _ hAdot]
    · rw [hpayEq, splitOnChar_append ':' _ _ hg2,
        splitOnChar_append ':' _ _ hq2,
        splitOnChar_of_not_mem ':' _ hdscol]
    · exact pyInt_pyStrOfNat _
    · push_cast
      omega
    · exact b64_decode_encode _ hdig256

/-- C9 witness: a concrete round trip — token for game `g`, player `p`,
key `k`, issued at instant 5 and verified at instant 100 under a
concrete stand-in digest function. -/
theorem token_roundtrip_w :
    verify_player_token macFix
      (some (generate_player_token macFix ['g'] ['p'] ['k'] 5)) ['k'] 100
      = .ok (some ⟨['g'], ['p'], ((5 + 86400 : Nat) : Int)⟩) :=
  token_roundtrip macFix ['g'] ['p'] ['k'] 5 100 (by decide) (by decide)
    (by decide) (by decide)
    (by
      intro k p b hb
      simp only [macFix, List.mem_append, List.mem_map,
        List.mem_cons, List.not_mem_nil, or_false] at hb
      rcases hb with ⟨c, _, rfl⟩ | rfl | rfl <;> omega)
    (by omega)

end Dragonseeker
